import Mathlib

/-
Verification of the daemon lifecycle manager of `simple-commands-mcp`.

The development shallowly embeds the core of the repository:
`src/processManager.ts` (ProcessManager: output buffers, daemon registry,
start/stop/status/logs) and `src/toolExecutor.ts` (ToolExecutor: tool
dispatch and one-shot command running).  Stateful TypeScript methods become
pure functions threading an explicit `Registry`; the asynchronous
environment (spawned process liveness, captured stream chunks, thrown
exceptions of `kill`/`spawn`/`exec`) is passed in as explicit data.
-/

/-- States of a tracked daemon process (enum `ProcessState` in
`src/types.ts`; string values starting/running/stopped/failed). -/
inductive ProcessState
  | STARTING
  | RUNNING
  | STOPPED
  | FAILED
deriving DecidableEq, Repr

/-- The wire strings of `ProcessState` from `src/types.ts`. -/
def processStateText : ProcessState → String
  | ProcessState.STARTING => "starting"
  | ProcessState.RUNNING => "running"
  | ProcessState.STOPPED => "stopped"
  | ProcessState.FAILED => "failed"

/-- `ProcessOutputBuffer` from `src/types.ts`: two bounded line buffers. -/
structure ProcessOutputBuffer where
  stdout : List String
  stderr : List String
  maxLines : Nat
deriving DecidableEq, Repr

/-- `RunningProcess` from `src/types.ts`.  The opaque OS process handle is
not part of the pure state; signals sent to it are modelled at the call
sites.  `startTime` is milliseconds since an arbitrary epoch. -/
structure RunningProcess where
  name : String
  pid : Nat
  startTime : Nat
  state : ProcessState
  outputBuffer : ProcessOutputBuffer
deriving DecidableEq, Repr

/-- The daemon registry: `ProcessManager.runningProcesses`, a JS `Map`
from daemon name to its tracked run, embedded as an association list in
insertion order (JS `Map` preserves insertion order). -/
abbrev Registry := List (String × RunningProcess)

/-- `Map.get` on the registry. -/
def mapGet : Registry → String → Option RunningProcess
  | [], _ => none
  | e :: rest, n => if e.1 = n then some e.2 else mapGet rest n

/-- `Map.set` on the registry: overwrite in place, else append. -/
def mapSet : Registry → String → RunningProcess → Registry
  | [], n, v => [(n, v)]
  | e :: rest, n, v => if e.1 = n then (n, v) :: rest else e :: mapSet rest n v

/-- `Map.delete` on the registry (keys are unique, so removing every
matching key is the same as removing the one entry). -/
def mapDelete : Registry → String → Registry
  | [], _ => []
  | e :: rest, n => if e.1 = n then mapDelete rest n else e :: mapDelete rest n

/-- `ProcessManager.MAX_OUTPUT_LINES` (1000). -/
def MAX_OUTPUT_LINES : Nat := 1000

/-- The liveness window `setTimeout(resolve, 1000)` awaited inside
`startDaemon`, in milliseconds. -/
def LIVENESS_WINDOW_MS : Nat := 1000

/-- The grace delay of `setTimeout(() => this.runningProcesses.delete(name), 5000)`
in the exit handler, in milliseconds. -/
def GRACE_DELAY_MS : Nat := 5000

/-- `ProcessManager.createOutputBuffer`. -/
def createOutputBuffer : ProcessOutputBuffer :=
  { stdout := [], stderr := [], maxLines := MAX_OUTPUT_LINES }

/-- `ProcessManager.addToBuffer`: `buffer.push(line)`, then
`buffer.shift()` once when the length exceeds `maxLines`. -/
def addToBuffer (buffer : List String) (line : String) (maxLines : Nat) : List String :=
  let b := buffer ++ [line]
  if maxLines < b.length then b.tail else b

/-- Iterated `addToBuffer` over a sequence of pushed lines. -/
def pushAll (maxLines : Nat) (buffer : List String) (ls : List String) : List String :=
  ls.foldl (fun b l => addToBuffer b l maxLines) buffer

/-- The last `k` elements of a list (JS `Array.prototype.slice(-k)` for
`k ≥ 1`; the `k = 0` quirk is handled at each call site). -/
def takeRight {α : Type} (k : Nat) (l : List α) : List α :=
  l.drop (l.length - k)

/-- JS whitespace test used by `String.prototype.trim` (the characters
relevant to process output). -/
def isWS (c : Char) : Bool :=
  c == ' ' || c == '\t' || c == '\n' || c == '\r'

/-- JS `String.prototype.trim` on the character list. -/
def trimChars (cs : List Char) : List Char :=
  ((cs.dropWhile isWS).reverse.dropWhile isWS).reverse

/-- JS `String.prototype.trim`. -/
def jsTrim (s : String) : String :=
  ⟨trimChars s.toList⟩

/-- JS `String.prototype.split(sep)` on character lists: split on every
occurrence of the separator, keeping empty pieces. -/
def splitCharsOn (sep : Char) : List Char → List (List Char)
  | [] => [[]]
  | c :: rest =>
      let r := splitCharsOn sep rest
      if c == sep then [] :: r
      else
        match r with
        | [] => [[c]]
        | h :: t => (c :: h) :: t

/-- JS `data.toString().split('\x5cn')`. -/
def splitOnNL (s : String) : List String :=
  (splitCharsOn '\n' s.toList).map (fun cs => ⟨cs⟩)

/-- The stream `data` handler's line splitting:
`data.toString().split('\x5cn').filter(line => line.trim())` — lines
whose trim is empty are dropped (JS truthiness of the trimmed string). -/
def splitChunk (data : String) : List String :=
  (splitOnNL data).filter (fun l => jsTrim l ≠ "")

/-- One stream `data` event: split the chunk and push each kept line. -/
def handleData (buffer : List String) (data : String) (maxLines : Nat) : List String :=
  pushAll maxLines buffer (splitChunk data)

/-- All lines captured from a sequence of raw stream chunks into a fresh
buffer, as the stream consumers installed by `startDaemon` do. -/
def captureChunks (chunks : List String) (maxLines : Nat) : List String :=
  chunks.foldl (fun b c => handleData b c maxLines) []

/-- `Array.prototype.join('\x5cn')`. -/
def joinLines : List String → String
  | [] => ""
  | [l] => l
  | l :: rest => l ++ "\n" ++ joinLines rest

/-- The `{success, message}` result shape of `startDaemon`/`stopDaemon`. -/
structure StartResult where
  success : Bool
  message : String
deriving DecidableEq, Repr

/-- Everything the environment decides during one `startDaemon` call:
the child's pid, the wall clock at spawn, whether `spawn` threw (the
`catch` branch), the raw stdout/stderr chunks delivered during the
1000 ms liveness window, and the liveness sample at its end
(`child.killed`, `child.exitCode`). -/
structure SpawnWindow where
  pid : Nat
  now : Nat
  spawnThrow : Option String
  stdoutChunks : List String
  stderrChunks : List String
  killed : Bool
  exitCode : Option Int
deriving DecidableEq, Repr

/-- `ProcessManager.startDaemon` as a pure function of the registry and
the spawn environment; returns the result and the updated registry. -/
def startDaemon (reg : Registry) (name command cwd : String) (w : SpawnWindow) :
    StartResult × Registry :=
  match mapGet reg name with
  | some existing =>
      ({ success := false,
         message := "Daemon \x27" ++ name ++ "\x27 is already running (PID: "
                      ++ toString existing.pid ++ ")" }, reg)
  | none =>
    match w.spawnThrow with
    | some err => ({ success := false, message := "Failed to start daemon: " ++ err }, reg)
    | none =>
      let buf0 := createOutputBuffer
      let stdoutBuf := captureChunks w.stdoutChunks buf0.maxLines
      let stderrBuf := captureChunks w.stderrChunks buf0.maxLines
      let outputBuffer : ProcessOutputBuffer :=
        { stdout := stdoutBuf, stderr := stderrBuf, maxLines := buf0.maxLines }
      let runningProcess : RunningProcess :=
        { name := name, pid := w.pid, startTime := w.now,
          state := ProcessState.STARTING, outputBuffer := outputBuffer }
      let reg1 := mapSet reg name runningProcess
      if w.killed || w.exitCode.isSome then
        let reg2 := mapDelete reg1 name
        let joined := joinLines stderrBuf
        let errorOutput := if joined = "" then "Process exited immediately" else joined
        ({ success := false,
           message := "Error: Daemon failed to start:\n" ++ errorOutput }, reg2)
      else
        let reg2 := mapSet reg1 name { runningProcess with state := ProcessState.RUNNING }
        ({ success := true,
           message := "Started daemon \x27" ++ name ++ "\x27 (PID: "
                        ++ toString w.pid ++ ")" }, reg2)

/-- The `child.on('exit', ...)` observer of `startDaemon`: look the entry
up, set its terminal state from the exit code (`code === 0` → STOPPED,
anything else, including a null code from a terminating signal, →
FAILED), and schedule the delayed registry removal.  Returns the updated
registry and the scheduled removal delay (in ms) when one was scheduled. -/
def onExit (reg : Registry) (name : String) (code : Option Int) :
    Registry × Option Nat :=
  match mapGet reg name with
  | none => (reg, none)
  | some proc =>
      (mapSet reg name
        { proc with state := if code = some 0 then ProcessState.STOPPED else ProcessState.FAILED },
       some GRACE_DELAY_MS)

/-- The body of the delayed `setTimeout(() => this.runningProcesses.delete(name), 5000)`. -/
def delayedRemove (reg : Registry) (name : String) : Registry :=
  mapDelete reg name

/-- Outcome of `ProcessManager.stopDaemon`: the `{success, message}`
result, the updated registry, and the signal handed to `process.kill`
when an entry was found (delivery may still have thrown). -/
structure StopOutcome where
  result : StartResult
  reg : Registry
  signal : Option String
deriving DecidableEq, Repr

/-- `ProcessManager.stopDaemon` as a pure function.  `killThrow` is the
exception thrown by `running.process.kill('SIGTERM')`, if any; when it
throws, the `delete` after it is never executed. -/
def stopDaemon (reg : Registry) (name : String) (killThrow : Option String) : StopOutcome :=
  match mapGet reg name with
  | none =>
      { result := { success := false,
                    message := "Daemon \x27" ++ name ++ "\x27 is not running" },
        reg := reg, signal := none }
  | some running =>
    match killThrow with
    | some err =>
        { result := { success := false, message := "Failed to stop daemon: " ++ err },
          reg := reg, signal := some "SIGTERM" }
    | none =>
        { result := { success := true,
                      message := "Stopped daemon \x27" ++ name ++ "\x27 (PID: "
                                   ++ toString running.pid ++ ")" },
          reg := mapDelete reg name, signal := some "SIGTERM" }

/-- `ProcessStatus` from `src/types.ts` (`startTime` rendered as a
number; `uptime` in whole seconds). -/
structure ProcessStatus where
  name : String
  pid : Nat
  state : ProcessState
  startTime : Nat
  uptime : Nat
  recentOutput : List String
deriving DecidableEq, Repr

/-- `ProcessManager.getProcessStatus`: `slice(-10)` of stdout and
`slice(-5)` of stderr (both counts positive constants, so plain
`takeRight`), stderr lines prefixed. -/
def getProcessStatus (reg : Registry) (name : String) (now : Nat) : Option ProcessStatus :=
  match mapGet reg name with
  | none => none
  | some proc =>
      some { name := proc.name, pid := proc.pid, state := proc.state,
             startTime := proc.startTime,
             uptime := (now - proc.startTime) / 1000,
             recentOutput :=
               takeRight 10 proc.outputBuffer.stdout
                 ++ (takeRight 5 proc.outputBuffer.stderr).map (fun line => "[stderr] " ++ line) }

/-- The `{stdout, stderr}` pair returned by `getProcessLogs`. -/
structure ProcessLogs where
  stdout : List String
  stderr : List String
deriving DecidableEq, Repr

/-- `ProcessManager.getProcessLogs`: `slice(-lines)` of each buffer.
JS `slice(-0)` equals `slice(0)` and returns the whole array, hence the
`lines = 0` branch. -/
def getProcessLogs (reg : Registry) (name : String) (lines : Nat) : Option ProcessLogs :=
  match mapGet reg name with
  | none => none
  | some proc =>
      some { stdout := if lines = 0 then proc.outputBuffer.stdout
                       else takeRight lines proc.outputBuffer.stdout,
             stderr := if lines = 0 then proc.outputBuffer.stderr
                       else takeRight lines proc.outputBuffer.stderr }

/-- Character-list matcher: does `pat` occur at the head of `s`? -/
def matchesAt : List Char → List Char → Bool
  | [], _ => true
  | _ :: _, [] => false
  | p :: ps, c :: cs => p == c && matchesAt ps cs

/-- JS `String.prototype.endsWith`. -/
def strEndsWith (s sfx : String) : Bool :=
  matchesAt sfx.toList.reverse s.toList.reverse

/-- Remove the first occurrence of `pat` from a character list (no change
when `pat` does not occur). -/
def dropFirstOccur (pat : List Char) : List Char → List Char
  | [] => []
  | c :: rest =>
      if matchesAt pat (c :: rest) then List.drop pat.length (c :: rest)
      else c :: dropFirstOccur pat rest

/-- JS `String.prototype.replace(pat, '')` with a string pattern: removes
only the FIRST occurrence of `pat`. -/
def replaceFirst (s pat : String) : String :=
  ⟨dropFirstOccur pat.toList s.toList⟩

/-- Modelled from the spec (section 4.4): the base name obtained by
"stripping the trailing suffix", for comparison with the source's
first-occurrence `replace`. -/
def stripTrailingSuffixSpec (s sfx : String) : String :=
  ⟨s.toList.take (s.toList.length - sfx.toList.length)⟩

/-- `ToolConfig` from `src/types.ts` (`daemon` optional, defaulted to
`false` by the destructuring in `executeTool`). -/
structure ToolConfig where
  name : String
  description : String
  command : String
  daemon : Option Bool
deriving DecidableEq, Repr

/-- The `{success, output}` result shape of `ToolExecutor`. -/
structure ExecResult where
  success : Bool
  output : String
deriving DecidableEq, Repr

/-- The JS value found in `error.code` of a failed `exec`: absent
(`undefined`), `null` (killed by a signal), or a number. -/
inductive JsCode
  | undef
  | null
  | num (n : Int)
deriving DecidableEq, Repr

/-- Template-literal rendering of a defined `error.code`. -/
def jsCodeText : JsCode → String
  | JsCode.undef => "undefined"
  | JsCode.null => "null"
  | JsCode.num n => toString n

/-- The error object `execAsync` rejects with: partial captured output,
`code`, and `message` (empty strings model absent `stdout`/`stderr`,
indistinguishable from present-but-empty under JS truthiness). -/
structure ExecError where
  stdout : String
  stderr : String
  code : JsCode
  message : String
deriving DecidableEq, Repr

/-- Outcome of one `execAsync(command, ...)` call: resolution with
`{stdout, stderr}`, or rejection (non-zero exit, signal, timeout, or
launch error). -/
inductive CommandOutcome
  | ok (stdout stderr : String)
  | err (e : ExecError)
deriving DecidableEq, Repr

/-- `ToolExecutor.runCommand`: total on every outcome (the `try`/`catch`
means no exception escapes), building `output` as the source does. -/
def runCommand (command : String) (outcome : CommandOutcome) : ExecResult :=
  match outcome with
  | CommandOutcome.ok stdout stderr =>
      let output := stdout ++ (if stderr ≠ "" then "\nStderr:\n" ++ stderr else "")
      { success := true,
        output := if output = "" then "Command completed successfully" else output }
  | CommandOutcome.err e =>
      let output0 : String := ""
      let output1 := if e.stdout ≠ "" then output0 ++ e.stdout else output0
      let output2 :=
        if e.stderr ≠ "" then
          (if output1 ≠ "" then output1 ++ "\n" ++ e.stderr else e.stderr)
        else output1
      let output3 :=
        if e.code ≠ JsCode.undef then
          "Command failed with exit code " ++ jsCodeText e.code ++ ":\n" ++ output2
        else output2
      { success := false,
        output := if output3 = "" then "Failed to run command: " ++ e.message else output3 }

/-- `ToolExecutor.getProcessStatus` (the private formatter around
`processManager.getProcessStatus`); `Started:` renders the numeric
start time. -/
def formatProcessStatus (reg : Registry) (now : Nat) (daemonName : String) : ExecResult :=
  match getProcessStatus reg daemonName now with
  | none =>
      { success := false,
        output := "Daemon \x27" ++ daemonName ++ "\x27 is not running" }
  | some st =>
      let base := "Daemon: " ++ st.name ++ "\n"
                    ++ "Status: " ++ processStateText st.state ++ "\n"
                    ++ "PID: " ++ toString st.pid ++ "\n"
                    ++ "Uptime: " ++ toString st.uptime ++ " seconds\n"
                    ++ "Started: " ++ toString st.startTime ++ "\n"
      let out := if st.recentOutput.length > 0
                 then base ++ "\nRecent output:\n" ++ joinLines st.recentOutput
                 else base
      { success := true, output := out }

/-- `ToolExecutor.getProcessLogs` (the private formatter around
`processManager.getProcessLogs`). -/
def formatProcessLogs (reg : Registry) (daemonName : String) (lines : Nat) : ExecResult :=
  match getProcessLogs reg daemonName lines with
  | none =>
      { success := false,
        output := "Daemon \x27" ++ daemonName ++ "\x27 is not running or has no logs" }
  | some lg =>
      let out0 := "=== Logs for " ++ daemonName ++ " (last " ++ toString lines
                    ++ " lines) ===\n\n"
      let out1 := out0 ++ (if lg.stdout.length > 0
                           then "--- STDOUT ---\n" ++ joinLines lg.stdout ++ "\n\n" else "")
      let out2 := out1 ++ (if lg.stderr.length > 0
                           then "--- STDERR ---\n" ++ joinLines lg.stderr ++ "\n" else "")
      let out3 := out2 ++ (if lg.stdout.length = 0 ∧ lg.stderr.length = 0
                           then "No output captured yet." else "")
      { success := true, output := out3 }

/-- `args?.lines || 50`: absent and `0` are both falsy, so both yield 50. -/
def execLines (argsLines : Option Nat) : Nat :=
  match argsLines with
  | none => 50
  | some 0 => 50
  | some k => k

/-- `ToolExecutor.executeTool` as a pure function.  Besides the registry
it takes the environment of the operations it may delegate to: wall
clock `now`, `killThrow` for `stopDaemon`, a `SpawnWindow` for
`startDaemon`, a `CommandOutcome` for `runCommand`, and the executor's
`projectRoot`.  `argsLines` is `args?.lines`. -/
def executeTool (reg : Registry) (now : Nat) (killThrow : Option String)
    (w : SpawnWindow) (outcome : CommandOutcome) (projectRoot : String)
    (toolConfig : Option ToolConfig) (toolName : String) (argsLines : Option Nat) :
    ExecResult × Registry :=
  match toolConfig with
  | none =>
    if strEndsWith toolName "_start" then
      ({ success := false, output := "Configuration not found for tool: " ++ toolName }, reg)
    else if strEndsWith toolName "_status" then
      (formatProcessStatus reg now (replaceFirst toolName "_status"), reg)
    else if strEndsWith toolName "_stop" then
      let r := stopDaemon reg (replaceFirst toolName "_stop") killThrow
      ({ success := r.result.success, output := r.result.message }, r.reg)
    else if strEndsWith toolName "_logs" then
      (formatProcessLogs reg (replaceFirst toolName "_logs") (execLines argsLines), reg)
    else
      ({ success := false, output := "Unknown tool: " ++ toolName }, reg)
  | some cfg =>
    let processName := if strEndsWith toolName "_start"
                       then replaceFirst toolName "_start" else cfg.name
    if cfg.daemon.getD false then
      let r := startDaemon reg processName cfg.command projectRoot w
      ({ success := r.1.success, output := r.1.message }, r.2)
    else
      (runCommand cfg.command outcome, reg)

/-! ### Registry map lemmas -/

theorem mapGet_mapSet_self (reg : Registry) (n : String) (v : RunningProcess) :
    mapGet (mapSet reg n v) n = some v := by
  induction reg with
  | nil => simp [mapGet, mapSet]
  | cons e rest ih =>
      by_cases h : e.1 = n
      · simp [mapGet, mapSet, h]
      · simp [mapGet, mapSet, h, ih]

theorem mapGet_mapDelete_self (reg : Registry) (n : String) :
    mapGet (mapDelete reg n) n = none := by
  induction reg with
  | nil => simp [mapGet, mapDelete]
  | cons e rest ih =>
      by_cases h : e.1 = n
      · simp [mapDelete, h, ih]
      · simp [mapGet, mapDelete, h, ih]

theorem mapDelete_of_get_none (reg : Registry) (n : String) (h : mapGet reg n = none) :
    mapDelete reg n = reg := by
  induction reg with
  | nil => simp [mapDelete]
  | cons e rest ih =>
      by_cases he : e.1 = n
      · simp [mapGet, he] at h
      · simp [mapGet, he] at h
        simp [mapDelete, he, ih h]

theorem mapDelete_idem (reg : Registry) (n : String) :
    mapDelete (mapDelete reg n) n = mapDelete reg n :=
  mapDelete_of_get_none _ _ (mapGet_mapDelete_self reg n)

/-! ### Output buffer lemmas -/

theorem addToBuffer_length_le (buffer : List String) (line : String) (m : Nat)
    (h : buffer.length ≤ m) : (addToBuffer buffer line m).length ≤ m := by
  unfold addToBuffer
  simp only []
  split
  · simp [List.length_tail]
    exact h
  · next hlt =>
      simp at hlt ⊢
      omega

theorem takeRight_of_length_le {α : Type} (k : Nat) (l : List α) (h : l.length ≤ k) :
    takeRight k l = l := by
  unfold takeRight
  have : l.length - k = 0 := by omega
  simp [this]

theorem takeRight_cons {α : Type} (k : Nat) (x : α) (xs : List α) (h : k ≤ xs.length) :
    takeRight k (x :: xs) = takeRight k xs := by
  unfold takeRight
  have hlen : (x :: xs).length - k = (xs.length - k) + 1 := by
    simp
    omega
  rw [hlen, List.drop_succ_cons]

theorem takeRight_length {α : Type} (k : Nat) (l : List α) :
    (takeRight k l).length = min k l.length := by
  unfold takeRight
  simp
  omega

theorem pushAll_eq_takeRight (m : Nat) (buffer : List String) (ls : List String)
    (h : buffer.length ≤ m) :
    pushAll m buffer ls = takeRight m (buffer ++ ls) := by
  induction ls generalizing buffer with
  | nil =>
      simp [pushAll, takeRight_of_length_le m buffer (by simpa using h)]
  | cons l ls ih =>
      have step : pushAll m buffer (l :: ls) = pushAll m (addToBuffer buffer l m) ls := by
        simp [pushAll]
      rw [step, ih _ (addToBuffer_length_le buffer l m h)]
      by_cases hm : m < buffer.length + 1
      · have hbm : buffer.length = m := by omega
        have habuf : addToBuffer buffer l m = (buffer ++ [l]).tail := by
          unfold addToBuffer
          simp [hm]
        rw [habuf]
        cases hb : buffer ++ [l] with
        | nil => simp at hb
        | cons y ys =>
            have hys : ys.length = m := by
              have := congrArg List.length hb
              simp at this
              omega
            have hassoc : buffer ++ l :: ls = y :: (ys ++ ls) := by
              have : buffer ++ l :: ls = (buffer ++ [l]) ++ ls := by simp
              rw [this, hb]
              simp
            rw [hassoc]
            rw [takeRight_cons m y (ys ++ ls) (by simp [hys])]
            simp
      · have habuf : addToBuffer buffer l m = buffer ++ [l] := by
          unfold addToBuffer
          simp [hm]
        rw [habuf]
        simp

/-- C2: starting from a fresh (empty) buffer, after any sequence of pushes
the buffer length never exceeds `maxLines`, and once more than `maxLines`
lines have been pushed the buffer holds exactly the last `maxLines`
pushed lines in push order (the oldest lines having been evicted FIFO). -/
theorem buffer_fifo_bounded (m : Nat) (ls : List String) :
    (pushAll m [] ls).length ≤ m ∧
    (m < ls.length →
      pushAll m [] ls = ls.drop (ls.length - m) ∧ (pushAll m [] ls).length = m) := by
  have he : pushAll m [] ls = takeRight m ls := by
    have := pushAll_eq_takeRight m [] ls (by simp)
    simpa using this
  constructor
  · rw [he, takeRight_length]
    omega
  · intro hlt
    constructor
    · rw [he]
      rfl
    · rw [he, takeRight_length]
      omega

/-- C2 witness: with capacity 2 and three pushed lines, the buffer holds
the last two lines in order. -/
theorem buffer_fifo_bounded_witness :
    (pushAll 2 [] ["a", "b", "c"]).length ≤ 2 ∧
    pushAll 2 [] ["a", "b", "c"] = ["b", "c"] := by
  refine ⟨(buffer_fifo_bounded 2 ["a", "b", "c"]).1, ?_⟩
  have h := ((buffer_fifo_bounded 2 ["a", "b", "c"]).2 (by decide)).1
  simpa using h

/-! ### Concrete fixtures used by witnesses and counterexamples -/

/-- A small populated output buffer. -/
def bufA : ProcessOutputBuffer :=
  { stdout := ["out1"], stderr := ["err1"], maxLines := 1000 }

/-- A live (RUNNING) tracked daemon with PID 42. -/
def procLive : RunningProcess :=
  { name := "dev", pid := 42, startTime := 0, state := ProcessState.RUNNING,
    outputBuffer := bufA }

/-- A registry holding only the live daemon `dev`. -/
def regLive : Registry := [("dev", procLive)]

/-- A spawn environment in which the child survives the liveness window. -/
def wIdle : SpawnWindow :=
  { pid := 99, now := 1000, spawnThrow := none, stdoutChunks := [], stderrChunks := [],
    killed := false, exitCode := none }

/-- C1: when the registry already holds a live (STARTING or RUNNING) entry
for `n` with PID `p.pid`, `startDaemon` fails with a message naming that
PID, and the registry — hence the existing entry, its state, buffers and
process — is returned unchanged. -/
theorem start_rejects_live_duplicate (reg : Registry) (n cmd cwd : String) (w : SpawnWindow)
    (p : RunningProcess) (h : mapGet reg n = some p)
    (hlive : p.state = ProcessState.STARTING ∨ p.state = ProcessState.RUNNING) :
    (startDaemon reg n cmd cwd w).1.success = false ∧
    (startDaemon reg n cmd cwd w).1.message =
      "Daemon \x27" ++ n ++ "\x27 is already running (PID: " ++ toString p.pid ++ ")" ∧
    (startDaemon reg n cmd cwd w).2 = reg ∧
    mapGet (startDaemon reg n cmd cwd w).2 n = some p := by
  simp [startDaemon, h]

/-- C1 witness: a concrete second `start` of the running daemon `dev`. -/
theorem start_rejects_live_duplicate_witness :
    (startDaemon regLive "dev" "npm run dev" "/" wIdle).1.success = false ∧
    (startDaemon regLive "dev" "npm run dev" "/" wIdle).1.message =
      "Daemon \x27dev\x27 is already running (PID: 42)" ∧
    (startDaemon regLive "dev" "npm run dev" "/" wIdle).2 = regLive := by
  have h := start_rejects_live_duplicate regLive "dev" "npm run dev" "/" wIdle procLive
    (by decide) (Or.inr rfl)
  exact ⟨h.1, h.2.1, h.2.2.1⟩

/-- C3: `stopDaemon` on an absent name fails with the "not running"
message and touches nothing; on a present name (with signal delivery not
throwing) it sends SIGTERM and removes the entry synchronously, so an
immediately following status or logs query reports not-found, and the
exit observer's later delayed removal of the same entry is a no-op. -/
theorem stop_removes_entry_sync (reg : Registry) (n : String) (kt : Option String)
    (now k : Nat) :
    (mapGet reg n = none →
      stopDaemon reg n kt =
        { result := { success := false,
                      message := "Daemon \x27" ++ n ++ "\x27 is not running" },
          reg := reg, signal := none }) ∧
    (∀ p, mapGet reg n = some p → kt = none →
      (stopDaemon reg n kt).result.success = true ∧
      (stopDaemon reg n kt).signal = some "SIGTERM" ∧
      mapGet (stopDaemon reg n kt).reg n = none ∧
      getProcessStatus (stopDaemon reg n kt).reg n now = none ∧
      getProcessLogs (stopDaemon reg n kt).reg n k = none ∧
      delayedRemove (stopDaemon reg n kt).reg n = (stopDaemon reg n kt).reg) := by
  constructor
  · intro h
    simp [stopDaemon, h]
  · intro p hp hkt
    subst hkt
    simp [stopDaemon, hp, getProcessStatus, getProcessLogs, mapGet_mapDelete_self,
      delayedRemove, mapDelete_idem]

/-- C3 witness: stopping the concrete running daemon `dev`. -/
theorem stop_removes_entry_sync_witness :
    (stopDaemon regLive "dev" none).result.success = true ∧
    mapGet (stopDaemon regLive "dev" none).reg "dev" = none ∧
    getProcessStatus (stopDaemon regLive "dev" none).reg "dev" 0 = none := by
  have h := (stop_removes_entry_sync regLive "dev" none 0 50).2 procLive (by decide) rfl
  exact ⟨h.1, h.2.2.1, h.2.2.2.1⟩

/-- C10: when `process.kill` throws inside `stopDaemon`, the call returns
failure and the registry entry is left in place unchanged, so a
subsequent stop, status, or logs call still finds it. -/
theorem stop_kill_throw_preserves_entry (reg : Registry) (n err : String)
    (p : RunningProcess) (h : mapGet reg n = some p) (now k : Nat) :
    (stopDaemon reg n (some err)).result.success = false ∧
    (stopDaemon reg n (some err)).result.message = "Failed to stop daemon: " ++ err ∧
    (stopDaemon reg n (some err)).reg = reg ∧
    mapGet (stopDaemon reg n (some err)).reg n = some p ∧
    (getProcessStatus (stopDaemon reg n (some err)).reg n now).isSome = true ∧
    (getProcessLogs (stopDaemon reg n (some err)).reg n k).isSome = true ∧
    (stopDaemon (stopDaemon reg n (some err)).reg n none).result.success = true := by
  simp [stopDaemon, h, getProcessStatus, getProcessLogs]

/-- C10 witness: a concrete failed SIGTERM delivery for daemon `dev`. -/
theorem stop_kill_throw_preserves_entry_witness :
    (stopDaemon regLive "dev" (some "EPERM")).result.success = false ∧
    (stopDaemon regLive "dev" (some "EPERM")).reg = regLive ∧
    mapGet (stopDaemon regLive "dev" (some "EPERM")).reg "dev" = some procLive := by
  have h := stop_kill_throw_preserves_entry regLive "dev" "EPERM" procLive (by decide) 0 50
  exact ⟨h.1, h.2.2.1, h.2.2.2.1⟩

/-- C5: for a tracked daemon, the exit observer sets the entry's state to
STOPPED exactly when the exit code is 0 and to FAILED on any nonzero code
or signal (null code), schedules removal after the fixed 5000 ms grace
delay, and until that removal runs, status and logs queries still find
the terminal entry. -/
theorem exit_observer_terminal_state (reg : Registry) (n : String) (code : Option Int)
    (p : RunningProcess) (h : mapGet reg n = some p) (now k : Nat) :
    mapGet (onExit reg n code).1 n =
      some { p with state := if code = some 0 then ProcessState.STOPPED
                             else ProcessState.FAILED } ∧
    ((mapGet (onExit reg n code).1 n).map RunningProcess.state =
        some ProcessState.STOPPED ↔ code = some 0) ∧
    (onExit reg n code).2 = some GRACE_DELAY_MS ∧
    GRACE_DELAY_MS = 5000 ∧
    (getProcessStatus (onExit reg n code).1 n now).isSome = true ∧
    (getProcessLogs (onExit reg n code).1 n k).isSome = true ∧
    mapGet (delayedRemove (onExit reg n code).1 n) n = none := by
  have hset : mapGet (onExit reg n code).1 n =
      some { p with state := if code = some 0 then ProcessState.STOPPED
                             else ProcessState.FAILED } := by
    simp [onExit, h, mapGet_mapSet_self]
  refine ⟨hset, ?_, ?_, rfl, ?_, ?_, ?_⟩
  · rw [hset]
    by_cases hc : code = some 0
    · simp [hc]
    · simp [hc]
  · simp [onExit, h]
  · simp [getProcessStatus, hset]
  · simp [getProcessLogs, hset]
  · simp [delayedRemove, mapGet_mapDelete_self]

/-- C5 witness: the running daemon `dev` exits with code 3 → FAILED,
removal scheduled at 5000 ms, status still found. -/
theorem exit_observer_terminal_state_witness :
    (mapGet (onExit regLive "dev" (some 3)).1 "dev").map RunningProcess.state =
      some ProcessState.FAILED ∧
    (onExit regLive "dev" (some 3)).2 = some 5000 ∧
    (getProcessStatus (onExit regLive "dev" (some 3)).1 "dev" 0).isSome = true := by
  have h := exit_observer_terminal_state regLive "dev" (some 3) procLive (by decide) 0 50
  refine ⟨?_, ?_, h.2.2.2.2.1⟩
  · rw [h.1]
    simp
  · rw [h.2.2.1]
    rfl

/-! ### Lines kept by the stream handlers have non-empty trim -/

theorem mem_addToBuffer {s line : String} (buffer : List String) (m : Nat)
    (h : s ∈ addToBuffer buffer line m) : s ∈ buffer ∨ s = line := by
  have h2 : s ∈ buffer ++ [line] := by
    simp only [addToBuffer] at h
    split at h
    · exact (List.tail_sublist _).subset h
    · exact h
  simpa using h2

theorem pushAll_forall {P : String → Prop} (m : Nat) (buffer ls : List String)
    (hb : ∀ s ∈ buffer, P s) (hl : ∀ s ∈ ls, P s) :
    ∀ s ∈ pushAll m buffer ls, P s := by
  induction ls generalizing buffer with
  | nil => simpa [pushAll] using hb
  | cons l ls ih =>
      intro s hs
      have hstep : pushAll m buffer (l :: ls) = pushAll m (addToBuffer buffer l m) ls := by
        simp [pushAll]
      rw [hstep] at hs
      refine ih (addToBuffer buffer l m) ?_ ?_ s hs
      · intro t ht
        rcases mem_addToBuffer buffer m ht with h | h
        · exact hb t h
        · exact h ▸ hl l (by simp)
      · intro t ht
        exact hl t (by simp [ht])

theorem splitChunk_trim_ne (data : String) :
    ∀ s ∈ splitChunk data, jsTrim s ≠ "" := by
  intro s hs
  simp only [splitChunk, List.mem_filter] at hs
  simpa using hs.2

theorem captureChunks_trim_ne (chunks : List String) (m : Nat) :
    ∀ s ∈ captureChunks chunks m, jsTrim s ≠ "" := by
  suffices h : ∀ buffer, (∀ s ∈ buffer, jsTrim s ≠ "") →
      ∀ s ∈ chunks.foldl (fun b c => handleData b c m) buffer, jsTrim s ≠ "" by
    exact h [] (by simp)
  induction chunks with
  | nil =>
      intro buffer hb
      simpa using hb
  | cons c cs ih =>
      intro buffer hb
      simp only [List.foldl_cons]
      refine ih _ ?_
      intro s hs
      exact pushAll_forall m buffer (splitChunk c) hb (splitChunk_trim_ne c) s hs

theorem ne_empty_of_trim_ne (s : String) (h : jsTrim s ≠ "") : s ≠ "" := by
  intro hs
  subst hs
  exact h rfl

theorem joinLines_ne_empty (l : List String) (hne : ∀ s ∈ l, s ≠ "") (h0 : l ≠ []) :
    joinLines l ≠ "" := by
  match l with
  | [] => exact absurd rfl h0
  | [a] =>
      show a ≠ ""
      exact hne a (by simp)
  | a :: b :: rest =>
      show a ++ "\n" ++ joinLines (b :: rest) ≠ ""
      intro hcontra
      have hlen := congrArg String.length hcontra
      rw [String.length_append, String.length_append] at hlen
      have h1 : ("\n" : String).length = 1 := rfl
      have h2 : ("" : String).length = 0 := rfl
      rw [h1, h2] at hlen
      omega

/-- C4: if the spawned process is sampled dead (killed or already exited)
at the end of the liveness window, `startDaemon` returns failure whose
diagnostic is the captured stderr lines (joined) or the fallback
"Process exited immediately" when none were captured, and the registry
entry is removed, so an immediate status query reports not-found. -/
theorem start_liveness_window_failure (reg : Registry) (n cmd cwd : String)
    (w : SpawnWindow) (hno : mapGet reg n = none) (hth : w.spawnThrow = none)
    (hdead : w.killed = true ∨ w.exitCode.isSome = true) (now : Nat) :
    (startDaemon reg n cmd cwd w).1.success = false ∧
    (captureChunks w.stderrChunks MAX_OUTPUT_LINES = [] →
      (startDaemon reg n cmd cwd w).1.message =
        "Error: Daemon failed to start:\nProcess exited immediately") ∧
    (captureChunks w.stderrChunks MAX_OUTPUT_LINES ≠ [] →
      (startDaemon reg n cmd cwd w).1.message =
        "Error: Daemon failed to start:\n"
          ++ joinLines (captureChunks w.stderrChunks MAX_OUTPUT_LINES)) ∧
    mapGet (startDaemon reg n cmd cwd w).2 n = none ∧
    getProcessStatus (startDaemon reg n cmd cwd w).2 n now = none := by
  have hcond : (w.killed || w.exitCode.isSome) = true := by
    rcases hdead with h | h
    · simp [h]
    · simp [h]
  have hgone : mapGet (startDaemon reg n cmd cwd w).2 n = none := by
    simp [startDaemon, hno, hth, hcond, mapGet_mapDelete_self]
  refine ⟨?_, ?_, ?_, hgone, ?_⟩
  · simp [startDaemon, hno, hth, hcond]
  · intro hc
    simp [startDaemon, hno, hth, hcond, createOutputBuffer, hc, joinLines]
  · intro hc
    have hjoin : joinLines (captureChunks w.stderrChunks MAX_OUTPUT_LINES) ≠ "" := by
      refine joinLines_ne_empty _ ?_ hc
      intro s hs
      exact ne_empty_of_trim_ne s (captureChunks_trim_ne w.stderrChunks MAX_OUTPUT_LINES s hs)
    simp [startDaemon, hno, hth, hcond, createOutputBuffer, hjoin]
  · simp [getProcessStatus, hgone]

/-- A spawn environment whose child dies inside the liveness window with
nothing on stderr. -/
def wDead : SpawnWindow :=
  { pid := 77, now := 0, spawnThrow := none, stdoutChunks := [], stderrChunks := [],
    killed := false, exitCode := some 1 }

/-- C4 witness: a concrete start whose process exits (code 1) within the
liveness window and captured no stderr. -/
theorem start_liveness_window_failure_witness :
    (startDaemon [] "web" "npm run web" "/" wDead).1.success = false ∧
    (startDaemon [] "web" "npm run web" "/" wDead).1.message =
      "Error: Daemon failed to start:\nProcess exited immediately" ∧
    getProcessStatus (startDaemon [] "web" "npm run web" "/" wDead).2 "web" 0 = none := by
  have h := start_liveness_window_failure [] "web" "npm run web" "/" wDead rfl rfl
    (Or.inr rfl) 0
  exact ⟨h.1, h.2.1 rfl, h.2.2.2.2⟩

/-! ### C6: a terminal entry in the grace window still blocks a new start -/

/-- A daemon whose run already reached the terminal state STOPPED (its
exit observer has fired; the 5000 ms purge has not yet run). -/
def procStopped : RunningProcess :=
  { name := "job", pid := 7, startTime := 0, state := ProcessState.STOPPED,
    outputBuffer := createOutputBuffer }

/-- A registry whose only entry for `job` is terminal — no live entry. -/
def regTerminal : Registry := [("job", procStopped)]

/-- C6 counterexample: with no live (STARTING/RUNNING) entry for `job` —
its only entry is STOPPED, inside the grace window — a new `start` is
nevertheless rejected as already running, naming the dead run's PID. -/
theorem start_during_grace_rejected_counterexample :
    mapGet regTerminal "job" = some procStopped ∧
    procStopped.state = ProcessState.STOPPED ∧
    (startDaemon regTerminal "job" "make job" "/" wIdle).1.success = false ∧
    (startDaemon regTerminal "job" "make job" "/" wIdle).1.message =
      "Daemon \x27job\x27 is already running (PID: 7)" ∧
    (startDaemon regTerminal "job" "make job" "/" wIdle).2 = regTerminal := by
  exact ⟨rfl, rfl, rfl, rfl, rfl⟩

/-- C6 amended: `startDaemon` checks bare presence in the registry, not
liveness — any entry for `n`, live or terminal-in-grace-window, causes
rejection naming that entry's PID; a new start proceeds to spawn exactly
when no entry at all exists for `n`. -/
theorem start_valid_only_when_no_entry (reg : Registry) (n cmd cwd : String)
    (w : SpawnWindow) :
    (∀ p, mapGet reg n = some p →
      (startDaemon reg n cmd cwd w).1.success = false ∧
      (startDaemon reg n cmd cwd w).1.message =
        "Daemon \x27" ++ n ++ "\x27 is already running (PID: " ++ toString p.pid ++ ")" ∧
      (startDaemon reg n cmd cwd w).2 = reg) ∧
    (mapGet reg n = none → w.spawnThrow = none → w.killed = false → w.exitCode = none →
      (startDaemon reg n cmd cwd w).1.success = true ∧
      mapGet (startDaemon reg n cmd cwd w).2 n =
        some { name := n, pid := w.pid, startTime := w.now,
               state := ProcessState.RUNNING,
               outputBuffer :=
                 { stdout := captureChunks w.stdoutChunks MAX_OUTPUT_LINES,
                   stderr := captureChunks w.stderrChunks MAX_OUTPUT_LINES,
                   maxLines := MAX_OUTPUT_LINES } }) := by
  constructor
  · intro p hp
    simp [startDaemon, hp]
  · intro h0 h1 h2 h3
    constructor
    · simp [startDaemon, h0, h1, h2, h3]
    · simp [startDaemon, h0, h1, h2, h3, createOutputBuffer, mapGet_mapSet_self]

/-- C6 amended witness: starting `job` when no entry exists succeeds. -/
theorem start_valid_only_when_no_entry_witness :
    (startDaemon [] "job" "make job" "/" wIdle).1.success = true := by
  exact ((start_valid_only_when_no_entry [] "job" "make job" "/" wIdle).2
    rfl rfl rfl rfl).1

/-! ### C7: suffix dispatch -/

/-- A running daemon whose base name itself contains `_status`. -/
def procBase : RunningProcess :=
  { name := "a_status_b", pid := 5, startTime := 0, state := ProcessState.RUNNING,
    outputBuffer := createOutputBuffer }

/-- Registry for the dispatch counterexample. -/
def regSuffix : Registry := [("a_status_b", procBase)]

/-- A trivial one-shot outcome for dispatcher calls that never reach the
command runner. -/
def outcomeNoop : CommandOutcome := CommandOutcome.ok "" ""

/-- C7 counterexample: for the identifier `a_status_b_status` (daemon base
name `a_status_b`), the dispatcher's `replace` removes the FIRST
occurrence of `_status`, yielding base name `a_b_status` instead of the
trailing-strip `a_status_b`; the status query therefore misses the
running daemon and fails.  Also, `_start` with no configured definition
fails with a "Configuration not found" diagnostic rather than invoking
the start operation. -/
theorem dispatcher_strip_counterexample :
    strEndsWith "a_status_b_status" "_status" = true ∧
    stripTrailingSuffixSpec "a_status_b_status" "_status" = "a_status_b" ∧
    replaceFirst "a_status_b_status" "_status" = "a_b_status" ∧
    (executeTool regSuffix 0 none wIdle outcomeNoop "/" none "a_status_b_status" none).1.success
      = false ∧
    (formatProcessStatus regSuffix 0 "a_status_b").success = true ∧
    (executeTool regSuffix 0 none wIdle outcomeNoop "/" none "x_start" none).1 =
      { success := false, output := "Configuration not found for tool: x_start" } := by
  exact ⟨rfl, rfl, rfl, rfl, rfl, rfl⟩

/-- C7 amended: the dispatcher checks the reserved suffixes in the order
_start, _status, _stop, _logs; for _status/_stop/_logs it takes the base
name by removing the FIRST occurrence of that suffix string (equal to
stripping the trailing suffix only when the string occurs nowhere
earlier) and invokes the corresponding lifecycle operation (`_logs` with
`args.lines`, falsy defaulted to 50); `_start` with no configuration
fails with "Configuration not found", while with a daemon configuration
it starts the daemon under the first-occurrence-stripped base name; an
identifier matching no configuration and no suffix fails with an
"Unknown tool" diagnostic. -/
theorem dispatcher_suffix_routing (reg : Registry) (now : Nat) (kt : Option String)
    (w : SpawnWindow) (oc : CommandOutcome) (root toolName : String)
    (argsLines : Option Nat) :
    (strEndsWith toolName "_start" = true →
      executeTool reg now kt w oc root none toolName argsLines =
        ({ success := false, output := "Configuration not found for tool: " ++ toolName },
         reg)) ∧
    (strEndsWith toolName "_start" = false → strEndsWith toolName "_status" = true →
      executeTool reg now kt w oc root none toolName argsLines =
        (formatProcessStatus reg now (replaceFirst toolName "_status"), reg)) ∧
    (strEndsWith toolName "_start" = false → strEndsWith toolName "_status" = false →
      strEndsWith toolName "_stop" = true →
      executeTool reg now kt w oc root none toolName argsLines =
        ({ success := (stopDaemon reg (replaceFirst toolName "_stop") kt).result.success,
           output := (stopDaemon reg (replaceFirst toolName "_stop") kt).result.message },
         (stopDaemon reg (replaceFirst toolName "_stop") kt).reg)) ∧
    (strEndsWith toolName "_start" = false → strEndsWith toolName "_status" = false →
      strEndsWith toolName "_stop" = false → strEndsWith toolName "_logs" = true →
      executeTool reg now kt w oc root none toolName argsLines =
        (formatProcessLogs reg (replaceFirst toolName "_logs") (execLines argsLines), reg)) ∧
    (argsLines = none → execLines argsLines = 50) ∧
    (strEndsWith toolName "_start" = false → strEndsWith toolName "_status" = false →
      strEndsWith toolName "_stop" = false → strEndsWith toolName "_logs" = false →
      executeTool reg now kt w oc root none toolName argsLines =
        ({ success := false, output := "Unknown tool: " ++ toolName }, reg)) ∧
    (∀ cfg : ToolConfig, cfg.daemon = some true → strEndsWith toolName "_start" = true →
      executeTool reg now kt w oc root (some cfg) toolName argsLines =
        ({ success := (startDaemon reg (replaceFirst toolName "_start") cfg.command root w).1.success,
           output := (startDaemon reg (replaceFirst toolName "_start") cfg.command root w).1.message },
         (startDaemon reg (replaceFirst toolName "_start") cfg.command root w).2)) := by
  refine ⟨?_, ?_, ?_, ?_, ?_, ?_, ?_⟩
  · intro h1
    simp [executeTool, h1]
  · intro h1 h2
    simp [executeTool, h1, h2]
  · intro h1 h2 h3
    simp [executeTool, h1, h2, h3]
  · intro h1 h2 h3 h4
    simp [executeTool, h1, h2, h3, h4]
  · intro h
    simp [execLines, h]
  · intro h1 h2 h3 h4
    simp [executeTool, h1, h2, h3, h4]
  · intro cfg hc h1
    simp [executeTool, h1, hc]

/-- C7 amended witness: a concrete `_status` dispatch. -/
theorem dispatcher_suffix_routing_witness :
    executeTool regSuffix 0 none wIdle outcomeNoop "/" none "dev_status" none =
      (formatProcessStatus regSuffix 0 (replaceFirst "dev_status" "_status"), regSuffix) := by
  exact (dispatcher_suffix_routing regSuffix 0 none wIdle outcomeNoop "/" "dev_status"
    none).2.1 rfl rfl

/-! ### C8: logs tails -/

/-- A daemon with one captured stdout line, for the `lines = 0` quirk. -/
def procLogs : RunningProcess :=
  { name := "lg", pid := 9, startTime := 0, state := ProcessState.RUNNING,
    outputBuffer := { stdout := ["a"], stderr := [], maxLines := 1000 } }

/-- Registry for the logs counterexample. -/
def regLogs : Registry := [("lg", procLogs)]

/-- C8 counterexample: `logs(n, 0)` returns 1 stdout line — more than the
requested `k = 0` — because `Array.slice(-0)` is `slice(0)` and yields
the whole buffer. -/
theorem logs_zero_lines_counterexample :
    getProcessLogs regLogs "lg" 0 = some { stdout := ["a"], stderr := [] } ∧
    ¬(((getProcessLogs regLogs "lg" 0).getD { stdout := [], stderr := [] }).stdout.length ≤ 0) := by
  exact ⟨rfl, by decide⟩

/-- C8 amended: for every requested count `k ≥ 1`, `logs(n, k)` returns
per stream the `min k length` most recent lines — never more than `k`,
and fewer than `k` only when that stream's buffer holds fewer — as a
suffix (push order) of the buffer; `k = 0` returns the entire buffers;
a name with no entry reports not-found. -/
theorem logs_tail_bounded (reg : Registry) (n : String) (k : Nat) (hk : 1 ≤ k) :
    (mapGet reg n = none → getProcessLogs reg n k = none) ∧
    (∀ p, mapGet reg n = some p →
      getProcessLogs reg n k =
        some { stdout := takeRight k p.outputBuffer.stdout,
               stderr := takeRight k p.outputBuffer.stderr } ∧
      (takeRight k p.outputBuffer.stdout).length = min k p.outputBuffer.stdout.length ∧
      (takeRight k p.outputBuffer.stderr).length = min k p.outputBuffer.stderr.length ∧
      List.IsSuffix (takeRight k p.outputBuffer.stdout) p.outputBuffer.stdout ∧
      List.IsSuffix (takeRight k p.outputBuffer.stderr) p.outputBuffer.stderr) ∧
    (mapGet reg n = none → getProcessLogs reg n 0 = none) ∧
    (∀ p, mapGet reg n = some p →
      getProcessLogs reg n 0 =
        some { stdout := p.outputBuffer.stdout, stderr := p.outputBuffer.stderr }) := by
  have hk0 : ¬(k = 0) := by omega
  refine ⟨?_, ?_, ?_, ?_⟩
  · intro h
    simp [getProcessLogs, h]
  · intro p hp
    refine ⟨by simp [getProcessLogs, hp, hk0], takeRight_length _ _, takeRight_length _ _,
      List.drop_suffix _ _, List.drop_suffix _ _⟩
  · intro h
    simp [getProcessLogs, h]
  · intro p hp
    simp [getProcessLogs, hp]

/-- C8 amended witness: `logs(lg, 2)` on a one-line buffer returns that
single line. -/
theorem logs_tail_bounded_witness :
    getProcessLogs regLogs "lg" 2 =
      some { stdout := takeRight 2 procLogs.outputBuffer.stdout,
             stderr := takeRight 2 procLogs.outputBuffer.stderr } ∧
    (takeRight 2 procLogs.outputBuffer.stdout).length =
      min 2 procLogs.outputBuffer.stdout.length := by
  have h := (logs_tail_bounded regLogs "lg" 2 (by decide)).2.1 procLogs (by decide)
  exact ⟨h.1, h.2.1⟩

/-! ### C9: the one-shot command runner -/

/-- The partial output assembled from a failed command's captured
stdout/stderr (before any exit-code prefix). -/
def capturedOutput (e : ExecError) : String :=
  if e.stdout = "" then e.stderr
  else if e.stderr = "" then e.stdout
  else e.stdout ++ "\n" ++ e.stderr

theorem string_length_pos (s : String) (h : s ≠ "") : 0 < s.length := by
  cases s with
  | mk data =>
      cases data with
      | nil => exact absurd rfl h
      | cons c cs =>
          show 0 < (c :: cs).length
          simp

theorem string_append_ne_empty_right (a b : String) (h : b ≠ "") : a ++ b ≠ "" := by
  intro hc
  have hlen := congrArg String.length hc
  rw [String.length_append] at hlen
  have hb := string_length_pos b h
  have h0 : String.length "" = 0 := rfl
  rw [h0] at hlen
  omega

theorem string_append_ne_empty_left (a b : String) (h : a ≠ "") : a ++ b ≠ "" := by
  intro hc
  have hlen := congrArg String.length hc
  rw [String.length_append] at hlen
  have ha := string_length_pos a h
  have h0 : String.length "" = 0 := rfl
  rw [h0] at hlen
  omega

theorem string_append_nl_ne_empty (a b : String) (ha : a ≠ "") : a ++ "\n" ++ b ≠ "" :=
  string_append_ne_empty_left _ _ (string_append_ne_empty_left _ _ ha)

/-- Characterization of the failure output of `runCommand`: exit-code
prefix when a code is defined, else the captured partial output, else
the raw error text. -/
theorem runCommand_err_output (cmd : String) (e : ExecError) :
    (runCommand cmd (CommandOutcome.err e)).output =
      if e.code ≠ JsCode.undef then
        "Command failed with exit code " ++ jsCodeText e.code ++ ":\n" ++ capturedOutput e
      else if capturedOutput e ≠ "" then capturedOutput e
      else "Failed to run command: " ++ e.message := by
  rcases e with ⟨es, er, ec, em⟩
  have hpre0 : ("Command failed with exit code " ++ jsCodeText ec ++ ":\n" : String) ≠ "" :=
    string_append_ne_empty_right _ _ (by decide)
  have hpre : ∀ s : String,
      "Command failed with exit code " ++ jsCodeText ec ++ ":\n" ++ s ≠ "" := fun s =>
    string_append_ne_empty_left _ _ hpre0
  by_cases h1 : es = "" <;> by_cases h2 : er = "" <;> by_cases h3 : ec = JsCode.undef
  · simp [runCommand, capturedOutput, h1, h2, h3]
  · simp [runCommand, capturedOutput, h1, h2, h3, hpre0, hpre]
  · simp [runCommand, capturedOutput, h1, h2, h3]
  · simp [runCommand, capturedOutput, h1, h2, h3, hpre0, hpre]
  · simp [runCommand, capturedOutput, h1, h2, h3]
  · simp [runCommand, capturedOutput, h1, h2, h3, hpre0, hpre]
  · have hC := string_append_nl_ne_empty es er h1
    simp [runCommand, capturedOutput, h1, h2, h3, hC]
  · have hC := string_append_nl_ne_empty es er h1
    simp [runCommand, capturedOutput, h1, h2, h3, hC, hpre0, hpre]

/-- C9: `runCommand` is total (no outcome escapes as an exception) and —
on resolution — concatenates stdout with a labeled stderr section when
stderr is non-empty, replacing entirely empty output with the fixed
placeholder; on rejection it reports `success = false` with output built
from the captured partial stdout/stderr, prefixed by the exit code when
one is defined, and falls back to the raw error text when nothing was
captured and no code is known. -/
theorem run_command_result (cmd : String) (outcome : CommandOutcome) :
    (∀ so se, outcome = CommandOutcome.ok so se →
      (runCommand cmd outcome).success = true ∧
      (se = "" → so = "" →
        (runCommand cmd outcome).output = "Command completed successfully") ∧
      (se = "" → so ≠ "" → (runCommand cmd outcome).output = so) ∧
      (se ≠ "" → (runCommand cmd outcome).output = so ++ "\nStderr:\n" ++ se)) ∧
    (∀ e, outcome = CommandOutcome.err e →
      (runCommand cmd outcome).success = false ∧
      (e.code = JsCode.undef → capturedOutput e = "" →
        (runCommand cmd outcome).output = "Failed to run command: " ++ e.message) ∧
      (e.code = JsCode.undef → capturedOutput e ≠ "" →
        (runCommand cmd outcome).output = capturedOutput e) ∧
      (e.code ≠ JsCode.undef →
        (runCommand cmd outcome).output =
          "Command failed with exit code " ++ jsCodeText e.code ++ ":\n"
            ++ capturedOutput e)) := by
  constructor
  · rintro so se rfl
    refine ⟨rfl, ?_, ?_, ?_⟩
    · rintro rfl rfl
      rfl
    · rintro rfl hso
      simp [runCommand, hso]
    · intro hse
      have hne : so ++ ("\nStderr:\n" ++ se) ≠ "" := by
        apply string_append_ne_empty_right
        apply string_append_ne_empty_left
        decide
      simp only [runCommand, hse, ne_eq, not_false_eq_true, ite_true]
      rw [if_neg (by simpa using hne)]
      rw [String.append_assoc]
  · rintro e rfl
    refine ⟨rfl, ?_, ?_, ?_⟩
    · intro hc hcap
      rw [runCommand_err_output]
      simp [hc, hcap]
    · intro hc hcap
      rw [runCommand_err_output]
      simp [hc, hcap]
    · intro hc
      rw [runCommand_err_output]
      simp [hc]

/-- C9 witness: a concrete resolved command with stderr text, and a
concrete rejected command with exit code 2. -/
theorem run_command_result_witness :
    (runCommand "pwd" (CommandOutcome.ok "out" "warn")).success = true ∧
    (runCommand "pwd" (CommandOutcome.ok "out" "warn")).output =
      "out" ++ "\nStderr:\n" ++ "warn" ∧
    (runCommand "make" (CommandOutcome.err
      { stdout := "partial", stderr := "", code := JsCode.num 2, message := "boom" })).output =
      "Command failed with exit code " ++ jsCodeText (JsCode.num 2) ++ ":\n"
        ++ capturedOutput
            { stdout := "partial", stderr := "", code := JsCode.num 2, message := "boom" } := by
  have h1 := (run_command_result "pwd" (CommandOutcome.ok "out" "warn")).1 "out" "warn" rfl
  have h2 := (run_command_result "make" (CommandOutcome.err
    { stdout := "partial", stderr := "", code := JsCode.num 2, message := "boom" })).2
    _ rfl
  exact ⟨h1.1, h1.2.2.2 (by decide), h2.2.2.2 (by decide)⟩
